import Mathlib

/-!
Verification development for the MTP-DCN switch daemon (closnet repository).

The definitions below are a shallow embedding of the C daemon found in
src/closnet/switches/mtp/src/main.c and src/closnet/protocols/mtp/src/config.c.
Linked lists of the C code become Lean lists; pointer mutation through a found
list node becomes replacement of the first list element with a matching
port_name; millisecond timestamps are Int; uint8_t / uint16_t / uint32_t
arithmetic is Nat or Int with explicit reduction modulo 2 to the width.
The table-manipulation helpers (mtp_struct.c / mtp_utils.c) are not part of the
source tree; each such helper is modelled from the specification and carries a
doc comment saying so.
-/

namespace MTP

/-- DEAD_TIMER constant from the spec (milliseconds). -/
def DEAD_TIMER : Int := 1500

/-- HELLO_TIMER constant from the spec (milliseconds). -/
def HELLO_TIMER : Int := 500

/-- FAILURE_UPDATE / RECOVER_UPDATE option byte: VIDs became reachable. -/
def REACHABLE_OPTION : Nat := 1

/-- FAILURE_UPDATE / RECOVER_UPDATE option byte: VIDs became unreachable. -/
def UNREACHABLE_OPTION : Nat := 2

/-- Failure classification of a control port: none (0 in the C code),
MISS_FAIL (missed keep-alives) or DETECT_FAIL (interface disappeared). -/
inductive FailType where
  | NO_FAIL
  | MISS_FAIL
  | DETECT_FAIL
deriving DecidableEq, Repr

/-- The eight MTP message types (used here to tag emitted messages). -/
inductive MsgKind where
  | HELLONR
  | JOIN_REQ
  | JOIN_RES
  | JOIN_ACK
  | START_HELLO
  | DATA_MSG
  | KEEP_ALIVE
  | FAILURE_UPDATE
  | RECOVER_UPDATE
deriving DecidableEq, Repr

/-- struct control_port of the C daemon (mtp_struct.h): one record per
MTP-speaking interface.  The prebuilt Ethernet header is not modelled. -/
structure ControlPort where
  port_name : String
  isUP : Bool
  start : Bool
  last_sent_time : Int
  last_received_time : Int
  fail_type : FailType
  continue_count : Nat
deriving DecidableEq, Repr

/-- struct VID_accepted_port: one entry per downstream control port, holding
the VIDs learned through it and an unreachable sub-table (ut).  The C struct
keeps a back-pointer cp to the control port, set once by
handle_receive_join_res; here cpSet records whether that pointer was set and
the port is addressed by its name. -/
structure VID_accepted_port where
  port_name : String
  VIDs : List String
  ut : List String
  cpSet : Bool
deriving DecidableEq, Repr

/-- struct VID_offered_port: one entry per upstream control port, holding the
VIDs offered through it, a reachable sub-table (rt) and an unreachable
sub-table (ut).  cpSet plays the same role as in VID_accepted_port. -/
structure VID_offered_port where
  port_name : String
  VIDs : List String
  rt : List String
  ut : List String
  cpSet : Bool
deriving DecidableEq, Repr

/-- Config structure of config.h: isLeaf, isTopSpine, tier (uint8_t, kept as a
Nat smaller than 256) and the compute interface name. -/
structure Config where
  isLeaf : Bool
  isTopSpine : Bool
  tier : Nat
  computeIntfName : String
deriving DecidableEq, Repr

/-- The whole per-daemon mutable state of main.c: configuration, the control
port registry and the two VID tables. -/
structure MTPState where
  config : Config
  cps : List ControlPort
  vaps : List VID_accepted_port
  vops : List VID_offered_port
deriving DecidableEq, Repr

/-- A message handed to the send socket: egress port, message type, option
byte and VID list.  Only the fields the claims talk about are modelled. -/
structure SentMsg where
  port : String
  kind : MsgKind
  option : Nat
  vids : List String
deriving DecidableEq, Repr

/-- find_control_port_by_name: first control port with the given name. -/
def find_control_port_by_name : List ControlPort → String → Option ControlPort
  | [], _ => none
  | c :: rest, n => if c.port_name = n then some c else find_control_port_by_name rest n

/-- find_accepted_port_by_name: first accepted entry keyed by the given port. -/
def find_accepted_port_by_name : List VID_accepted_port → String → Option VID_accepted_port
  | [], _ => none
  | v :: rest, n => if v.port_name = n then some v else find_accepted_port_by_name rest n

/-- find_offered_port_by_name: first offered entry keyed by the given port. -/
def find_offered_port_by_name : List VID_offered_port → String → Option VID_offered_port
  | [], _ => none
  | v :: rest, n => if v.port_name = n then some v else find_offered_port_by_name rest n

/-- find_accepted_port_by_VID: first accepted entry whose VID set contains the
given VID (used by the spine data-plane lookup). -/
def find_accepted_port_by_VID : List VID_accepted_port → String → Option VID_accepted_port
  | [], _ => none
  | v :: rest, x => if x ∈ v.VIDs then some v else find_accepted_port_by_VID rest x

/-- In-place mutation through the pointer returned by find_control_port_by_name
becomes: replace the first list element with that name by its image under f. -/
def modify_control_port : List ControlPort → String → (ControlPort → ControlPort) → List ControlPort
  | [], _, _ => []
  | c :: rest, n, f => if c.port_name = n then f c :: rest else c :: modify_control_port rest n f

/-- Mutation of the accepted entry found by name (see modify_control_port). -/
def modify_accepted : List VID_accepted_port → String → (VID_accepted_port → VID_accepted_port) → List VID_accepted_port
  | [], _, _ => []
  | v :: rest, n, f => if v.port_name = n then f v :: rest else v :: modify_accepted rest n f

/-- Mutation of the offered entry found by name (see modify_control_port). -/
def modify_offered : List VID_offered_port → String → (VID_offered_port → VID_offered_port) → List VID_offered_port
  | [], _, _ => []
  | v :: rest, n, f => if v.port_name = n then f v :: rest else v :: modify_offered rest n f

/-- Modelled from the spec: the VID insertion used by add_to_unreachable_table,
add_to_reachable_table and the VID lists of table entries (mtp_struct.c is not
in the source tree).  Sub-tables hold sets of VIDs, so insertion is a no-op
when the VID is already present. -/
def add_VID_if_absent (l : List String) (v : String) : List String :=
  if v ∈ l then l else l ++ [v]

/-- Folding add_VID_if_absent over a received VID list, as the per-message
loops of the C handlers do. -/
def add_VIDs (vids : List String) (l : List String) : List String :=
  vids.foldl add_VID_if_absent l

/-- Modelled from the spec: remove_unreachable_VID_by_name deletes the entry
with the given VID from an unreachable sub-table. -/
def remove_unreachable_VID_by_name (l : List String) (v : String) : List String :=
  l.filter (fun x => x ≠ v)

/-- Modelled from the spec: find_unreachable_VID_by_name looks up an entry of
an unreachable sub-table by its VID string. -/
def find_unreachable_VID_by_name (l : List String) (v : String) : Bool :=
  decide (v ∈ l)

/-- The liveness of the control port an accepted/offered entry points back to
(the C code dereferences the cp back-pointer; here the port is looked up by
name in the control-port registry). -/
def control_port_isUP (st : MTPState) (n : String) : Bool :=
  match find_control_port_by_name st.cps n with
  | some c => c.isUP
  | none => false

/-- Modelled from the spec: is_all_offered_ports_down checks that no offered
entry has an up control port (vacuously true when the offered table is empty,
as in the C loop over the list). -/
def is_all_offered_ports_down (st : MTPState) : Bool :=
  st.vops.all (fun v => !(control_port_isUP st v.port_name))

/-- Modelled from the spec: is_unreachable_and_reachable_empty is the
all-clean test, true when every offered port has empty reachable and
unreachable sub-tables. -/
def is_unreachable_and_reachable_empty (vops : List VID_offered_port) : Bool :=
  vops.all (fun v => v.rt.isEmpty && v.ut.isEmpty)

/-- Modelled from the spec: get_all_accepted_VIDs gathers every VID of every
accepted entry (the C function fills the scratch array and returns the count). -/
def get_all_accepted_VIDs (vaps : List VID_accepted_port) : List String :=
  (vaps.map (fun v => v.VIDs)).flatten

/-- Modelled from the spec: get_accepted_VIDs_by_port_name gathers the VIDs of
the accepted entry keyed by the given port. -/
def get_accepted_VIDs_by_port_name (vaps : List VID_accepted_port) (p : String) : List String :=
  match find_accepted_port_by_name vaps p with
  | some v => v.VIDs
  | none => []

/-- Modelled from the spec: get_unreachable_VIDs_from_offered_ports gathers
the VIDs currently in any offered-port unreachable sub-table. -/
def get_unreachable_VIDs_from_offered_ports (vops : List VID_offered_port) : List String :=
  (vops.map (fun v => v.ut)).flatten

/-- 2 to the 32, the modulus of uint32 arithmetic in the hash. -/
def UINT32_MOD : Nat := 4294967296

/-- One byte step of the Jenkins one-at-a-time hash:
hash += byte; hash += hash shl 10; hash ^= hash shr 6 (all uint32). -/
def jenkins_byte_step (h b : Nat) : Nat :=
  let h1 := (h + b) % UINT32_MOD
  let h2 := (h1 + h1 * 1024) % UINT32_MOD
  Nat.xor h2 (h2 / 64)

/-- Modelled from the spec: the Jenkins one-at-a-time hash used for multipath
selection (mtp_utils.c is not in the source tree); the final avalanche is
hash += hash shl 3; hash ^= hash shr 11; hash += hash shl 15 (all uint32). -/
def jenkins_one_at_a_time_hash (key : List Nat) : Nat :=
  let h := key.foldl jenkins_byte_step 0
  let h1 := (h + h * 8) % UINT32_MOD
  let h2 := Nat.xor h1 (h1 / 2048)
  (h2 + h2 * 32768) % UINT32_MOD

/-- Modelled from the spec: count_available_offered_port.  An offered port is
available for dest_VID iff its control port is up, dest_VID is not blocked in
its unreachable sub-table, and its outward VID set could reach dest_VID; the
spec does not define the reach test further, so it is an abstract parameter
couldReach.  The C function fills the scratch array with the names of the
available ports and returns their number; here the list of names is returned
(its length is that count). -/
def count_available_offered_port (couldReach : List String → String → Bool)
    (st : MTPState) (dest : String) : List String :=
  (st.vops.filter (fun v =>
    control_port_isUP st v.port_name && !(v.ut.contains dest) && couldReach v.VIDs dest)).map
    (fun v => v.port_name)

/-- Spine branch of handle_receive_data_msg (main.c lines 619-680): look the
destination VID up in the accepted table; if an entry is found, drop the
packet when the entry's control port is down or find_unreachable_VID_by_name
succeeds on the entry's own port name (this is what the C code passes), else
forward out that port; if no entry is found, hash-select among the available
offered ports and drop when there are none.  The result is the chosen egress
port, none meaning the packet is dumped. -/
def handle_receive_data_msg_spine (couldReach : List String → String → Bool)
    (st : MTPState) (dest_VID_str : String) (hashBytes : List Nat) : Option String :=
  match find_accepted_port_by_VID st.vaps dest_VID_str with
  | some vap =>
    if control_port_isUP st vap.port_name = false ∨ find_unreachable_VID_by_name vap.ut vap.port_name = true then
      none
    else
      some vap.port_name
  | none =>
    let names := count_available_offered_port couldReach st dest_VID_str
    if names.length = 0 then none
    else names[jenkins_one_at_a_time_hash hashBytes % names.length]?

/-- handle_receive_failure_update (main.c lines 749-812): on a downstream
(accepted) port add the VIDs to that port's unreachable sub-table and forward
FAILURE_UPDATE(UNREACHABLE) out every other up control port; on an upstream
(offered) port clear the reachable sub-table and insert the VIDs into the
unreachable (option UNREACHABLE) or reachable (any other option) sub-table -
the C code's clearing of the unreachable sub-table in the reachable branch is
commented out - then, unless this node is a leaf, re-flood the offered-port
unreachable VIDs out every up accepted port when the offered sub-tables are
not all clean.  Returns the new state and the emitted messages. -/
def handle_receive_failure_update (st : MTPState) (q : String) (tableOption : Nat)
    (vids : List String) : MTPState × List SentMsg :=
  if (find_accepted_port_by_name st.vaps q).isSome then
    let st1 := { st with vaps := modify_accepted st.vaps q (fun v => { v with ut := add_VIDs vids v.ut }) }
    (st1, (st1.cps.filter (fun c => decide (c.port_name ≠ q) && c.isUP)).map
      (fun c => ⟨c.port_name, MsgKind.FAILURE_UPDATE, UNREACHABLE_OPTION, vids⟩))
  else if (find_offered_port_by_name st.vops q).isSome then
    let st1 :=
      if tableOption = UNREACHABLE_OPTION then
        { st with vops := modify_offered st.vops q (fun v => { v with rt := [], ut := add_VIDs vids v.ut }) }
      else
        { st with vops := modify_offered st.vops q (fun v => { v with rt := add_VIDs vids [] }) }
    if st.config.isLeaf then (st1, [])
    else if is_unreachable_and_reachable_empty st1.vops = false then
      let u := get_unreachable_VIDs_from_offered_ports st1.vops
      if u.length ≠ 0 then
        (st1, (st1.vaps.filter (fun v => control_port_isUP st1 v.port_name)).map
          (fun v => ⟨v.port_name, MsgKind.FAILURE_UPDATE, UNREACHABLE_OPTION, u⟩))
      else (st1, [])
    else (st1, [])
  else (st, [])

/-- handle_receive_recover_update (main.c lines 814-887): on a downstream
(accepted) port remove the VIDs from that port's unreachable sub-table and
forward RECOVER_UPDATE(UNREACHABLE) out every other up control port; on an
upstream (offered) port, for option UNREACHABLE remove the VIDs from that
port's unreachable sub-table and (unless a leaf) re-propagate towards the up
accepted ports depending on the clean-before versus clean-after transition;
for any other option clear the port's reachable sub-table and re-propagate
only on a dirty-to-clean transition when the recomputed unreachable set is
non-empty. -/
def handle_receive_recover_update (st : MTPState) (q : String) (tableOption : Nat)
    (vids : List String) : MTPState × List SentMsg :=
  if (find_accepted_port_by_name st.vaps q).isSome then
    let vaps1 := modify_accepted st.vaps q
      (fun v => { v with ut := vids.foldl remove_unreachable_VID_by_name v.ut })
    let st1 := { st with vaps := vaps1 }
    (st1, (st1.cps.filter (fun c => decide (c.port_name ≠ q) && c.isUP)).map
      (fun c => ⟨c.port_name, MsgKind.RECOVER_UPDATE, UNREACHABLE_OPTION, vids⟩))
  else if (find_offered_port_by_name st.vops q).isSome then
    if tableOption = UNREACHABLE_OPTION then
      let is_clean_before := is_unreachable_and_reachable_empty st.vops
      let vops1 := modify_offered st.vops q
        (fun v => { v with ut := vids.foldl remove_unreachable_VID_by_name v.ut })
      let st1 := { st with vops := vops1 }
      let is_clean_after := is_unreachable_and_reachable_empty st1.vops
      if st.config.isLeaf then (st1, [])
      else if is_clean_before = false ∧ is_clean_after = false then
        (st1, (st1.vaps.filter (fun v => control_port_isUP st1 v.port_name)).map
          (fun v => ⟨v.port_name, MsgKind.RECOVER_UPDATE, UNREACHABLE_OPTION, vids⟩))
      else if is_clean_before = false ∧ is_clean_after = true then
        let vids2 := vids ++ get_unreachable_VIDs_from_offered_ports st1.vops
        (st1, (st1.vaps.filter (fun v => control_port_isUP st1 v.port_name)).map
          (fun v => ⟨v.port_name, MsgKind.RECOVER_UPDATE, UNREACHABLE_OPTION, vids2⟩))
      else (st1, [])
    else
      let is_clean_before := is_unreachable_and_reachable_empty st.vops
      let st1 := { st with vops := modify_offered st.vops q (fun v => { v with rt := [] }) }
      if st.config.isLeaf then (st1, [])
      else
        let is_clean_after := is_unreachable_and_reachable_empty st1.vops
        if is_clean_before = false ∧ is_clean_after = true then
          let u := get_unreachable_VIDs_from_offered_ports st1.vops
          if u.length ≠ 0 then
            (st1, (st1.vaps.filter (fun v => control_port_isUP st1 v.port_name)).map
              (fun v => ⟨v.port_name, MsgKind.RECOVER_UPDATE, UNREACHABLE_OPTION, u⟩))
          else (st1, [])
        else (st1, [])
  else (st, [])

/-- Per-port state change of handle_receive_keep_alive (main.c lines 684-747):
a DETECT_FAIL port ignores the message entirely; otherwise MISS_FAIL is
cleared, then a down port whose gap since the last reception is below
DEAD_TIMER counts the keep-alive, returning up when continue_count reaches 3;
finally last_received_time is refreshed.  The recover-flood messages emitted
when the count reaches 3 do not change any port field other than isUP. -/
def keep_alive_port (now : Int) (cp : ControlPort) : ControlPort :=
  if cp.fail_type = FailType.DETECT_FAIL then cp
  else
    let cp1 := { cp with fail_type := if cp.fail_type = FailType.MISS_FAIL then FailType.NO_FAIL else cp.fail_type }
    let cp2 :=
      if cp1.isUP = false ∧ now - cp1.last_received_time < DEAD_TIMER ∧ cp1.continue_count < 3 then
        let cpi := { cp1 with continue_count := cp1.continue_count + 1 }
        if cpi.continue_count = 3 then { cpi with isUP := true } else cpi
      else cp1
    { cp2 with last_received_time := now }

/-- handle_receive_keep_alive on the whole state: the port is looked up by
name and updated in place; an unknown port leaves the state unchanged. -/
def handle_receive_keep_alive (st : MTPState) (p : String) (now : Int) : MTPState :=
  match find_control_port_by_name st.cps p with
  | some _ => { st with cps := modify_control_port st.cps p (keep_alive_port now) }
  | none => st

/-- Per-port liveness pass of the main loop (main.c lines 356-473): started
ports that have received at least one message are checked for immediate
(interface gone) failure, DETECT_FAIL come-back, and keep-alive miss; a port
that passes the checks emits a keep-alive when HELLO_TIMER elapsed since the
last send.  alive is the interface list returned by
get_all_ethernet_interface2, now the millisecond clock of this iteration. -/
def loop_port_check (alive : List String) (now : Int) (cp : ControlPort) : ControlPort :=
  if cp.start = false then cp
  else
    let hello := fun (c : ControlPort) =>
      if now - c.last_sent_time ≥ HELLO_TIMER then { c with last_sent_time := now } else c
    if cp.last_received_time ≠ 0 then
      let isAlive := alive.contains cp.port_name
      let c1 :=
        if isAlive = false ∧ cp.isUP = true then
          { cp with isUP := false, fail_type := FailType.DETECT_FAIL, continue_count := 0 }
        else if isAlive = true ∧ cp.fail_type = FailType.DETECT_FAIL then
          { cp with fail_type := FailType.NO_FAIL }
        else cp
      if c1.fail_type ≠ FailType.NO_FAIL then c1
      else if now - c1.last_received_time ≥ DEAD_TIMER ∧ c1.isUP = true then
        { c1 with continue_count := 0, isUP := false, fail_type := FailType.MISS_FAIL }
      else hello c1
    else hello cp

/-- Marking a control port down on failure detection (both the immediate and
the miss branch of the main loop): isUP cleared, fail type recorded,
continue_count reset to 0. -/
def mark_port_down (st : MTPState) (p : String) (ft : FailType) : MTPState :=
  let cps1 := modify_control_port st.cps p
    (fun c => { c with isUP := false, fail_type := ft, continue_count := 0 })
  { st with cps := cps1 }

/-- The failure flood run right after a port is marked down (main.c lines
374-404 and the identical lines 428-459): if the node is not a top spine and
every offered port is down, FAILURE_UPDATE(REACHABLE, all accepted VIDs) goes
out every accepted entry whose control port is still up; otherwise if the
failed port has an accepted entry, FAILURE_UPDATE(UNREACHABLE, that port's
VIDs) goes out every up control port (the failed port itself is already
down); otherwise the failed port was upstream and the blocked VIDs are
re-flooded out the up offered ports when the offered sub-tables are not all
clean. -/
def port_down_failure_sends (st : MTPState) (p : String) : List SentMsg :=
  if st.config.isTopSpine = false ∧ is_all_offered_ports_down st = true then
    (st.vaps.filter (fun v => control_port_isUP st v.port_name)).map
      (fun v => ⟨v.port_name, MsgKind.FAILURE_UPDATE, REACHABLE_OPTION, get_all_accepted_VIDs st.vaps⟩)
  else if (find_accepted_port_by_name st.vaps p).isSome then
    (st.cps.filter (fun c => c.isUP)).map
      (fun c => ⟨c.port_name, MsgKind.FAILURE_UPDATE, UNREACHABLE_OPTION, get_accepted_VIDs_by_port_name st.vaps p⟩)
  else
    if is_unreachable_and_reachable_empty st.vops = false then
      let u := get_unreachable_VIDs_from_offered_ports st.vops
      if u.length ≠ 0 then
        (st.vops.filter (fun v => control_port_isUP st v.port_name)).map
          (fun v => ⟨v.port_name, MsgKind.FAILURE_UPDATE, UNREACHABLE_OPTION, u⟩)
      else []
    else []

/-- Modelled from the spec: add_to_accepted_table inserts a VID into the
accepted entry keyed by the port, creating the entry on first touch (entries
are created by the first Join-Res processed on that port and never deleted). -/
def add_to_accepted_table : List VID_accepted_port → String → String → List VID_accepted_port
  | [], p, vid => [{ port_name := p, VIDs := [vid], ut := [], cpSet := false }]
  | v :: rest, p, vid =>
    if v.port_name = p then { v with VIDs := add_VID_if_absent v.VIDs vid } :: rest
    else v :: add_to_accepted_table rest p vid

/-- Modelled from the spec: add_to_offered_table, the offered-side twin of
add_to_accepted_table (entries created by the first Join-Ack, never deleted). -/
def add_to_offered_table : List VID_offered_port → String → String → List VID_offered_port
  | [], p, vid => [{ port_name := p, VIDs := [vid], rt := [], ut := [], cpSet := false }]
  | v :: rest, p, vid =>
    if v.port_name = p then { v with VIDs := add_VID_if_absent v.VIDs vid } :: rest
    else v :: add_to_offered_table rest p vid

/-- handle_receive_join_res (main.c lines 534-559): add the received VIDs to
the accepted table keyed by the ingress port and stamp the entry's control
port back-reference.  The Hello-NR and Join-Ack emissions change no state. -/
def handle_receive_join_res (st : MTPState) (p : String) (vids : List String) : MTPState :=
  let vaps1 := vids.foldl (fun l v => add_to_accepted_table l p v) st.vaps
  let vaps2 := modify_accepted vaps1 p (fun v => if v.cpSet then v else { v with cpSet := true })
  { st with vaps := vaps2 }

/-- handle_receive_join_ack (main.c lines 562-582): add the received VIDs to
the offered table keyed by the ingress port; if the entry's control port
back-reference is not yet set, set it and turn the port on (isUP, start). -/
def handle_receive_join_ack (st : MTPState) (p : String) (vids : List String) : MTPState :=
  let vops1 := vids.foldl (fun l v => add_to_offered_table l p v) st.vops
  match find_offered_port_by_name vops1 p with
  | some v =>
    if v.cpSet then { st with vops := vops1 }
    else
      let vops2 := modify_offered vops1 p (fun w => { w with cpSet := true })
      let cps2 := modify_control_port st.cps p (fun c => { c with isUP := true, start := true })
      { st with vops := vops2, cps := cps2 }
  | none => { st with vops := vops1 }

/-- handle_receive_start_hello (main.c lines 585-591): turn the ingress port
on (isUP and start). -/
def handle_receive_start_hello (st : MTPState) (p : String) : MTPState :=
  let cps1 := modify_control_port st.cps p (fun c => { c with isUP := true, start := true })
  { st with cps := cps1 }

/-- One occurrence the event loop reacts to: a received MTP message on a named
control port, or one liveness pass over the control ports with the interface
list the kernel reports and the clock value of the iteration.  Hello-NR and
Join-Req reception, and the data-plane egress pick, change no table state;
for DATA_MSG only the ingress last_received_time update is modelled here (the
egress choice is handle_receive_data_msg_spine). -/
inductive Event where
  | helloNR (port : String) (senderTier : Nat) (vids : List String)
  | joinReq (port : String) (vids : List String)
  | joinRes (port : String) (vids : List String)
  | joinAck (port : String) (vids : List String)
  | startHello (port : String)
  | dataMsg (port : String) (now : Int)
  | keepAlive (port : String) (now : Int)
  | failureUpdate (port : String) (tableOption : Nat) (vids : List String)
  | recoverUpdate (port : String) (tableOption : Nat) (vids : List String)
  | loopCheck (alive : List String) (now : Int)
deriving DecidableEq, Repr

/-- Dispatch of the event loop (main.c lines 280-474) on the state. -/
def step (st : MTPState) : Event → MTPState
  | Event.helloNR _ _ _ => st
  | Event.joinReq _ _ => st
  | Event.joinRes p vids => handle_receive_join_res st p vids
  | Event.joinAck p vids => handle_receive_join_ack st p vids
  | Event.startHello p => handle_receive_start_hello st p
  | Event.dataMsg p now =>
    let cps1 := modify_control_port st.cps p (fun c => { c with last_received_time := now })
    { st with cps := cps1 }
  | Event.keepAlive p now => handle_receive_keep_alive st p now
  | Event.failureUpdate p opt vids => (handle_receive_failure_update st p opt vids).1
  | Event.recoverUpdate p opt vids => (handle_receive_recover_update st p opt vids).1
  | Event.loopCheck alive now => { st with cps := st.cps.map (loop_port_check alive now) }

/-- A control port as created at startup by add_to_control_port_table: down,
not started, no failure, zero counters and timestamps. -/
def initControlPort (n : String) : ControlPort :=
  { port_name := n, isUP := false, start := false, last_sent_time := 0,
    last_received_time := 0, fail_type := FailType.NO_FAIL, continue_count := 0 }

/-- Daemon state right after startup: the enumerated control ports and empty
accepted and offered tables. -/
def initState (cfg : Config) (names : List String) : MTPState :=
  { config := cfg, cps := names.map initControlPort, vaps := [], vops := [] }

/-- Running the event loop over a sequence of events from startup. -/
def run (cfg : Config) (names : List String) (events : List Event) : MTPState :=
  events.foldl step (initState cfg names)

/-- Digit-accumulation loop of atoi: consume leading decimal digits. -/
def atoiLoop : List Char → Int → Int
  | [], acc => acc
  | c :: cs, acc => if c.isDigit then atoiLoop cs (acc * 10 + ((c.toNat : Int) - 48)) else acc

/-- C atoi as used by readConfigurationFile: skip leading whitespace, accept
an optional sign, then read the longest digit prefix (0 when there is none). -/
def atoi (s : String) : Int :=
  let cs := s.toList.dropWhile (fun c => c = ' ' ∨ c = '\t' ∨ c = '\n' ∨ c = '\r')
  match cs with
  | '-' :: rest => - atoiLoop rest 0
  | '+' :: rest => atoiLoop rest 0
  | _ => atoiLoop cs 0

/-- Conversion of an int to uint8_t: reduction modulo 256 (C unsigned
conversion), here as the canonical representative in [0, 256). -/
def to_uint8 (n : Int) : Nat :=
  (n % 256).toNat

/-- Body of the readConfigurationFile line loop (config.c lines 82-97) for one
key:value pair: isTopSpine is set by string comparison with True; tier is
atoi of the value truncated to uint8_t, and isLeaf is set iff that truncated
tier equals 1; any other key leaves the configuration unchanged. -/
def processConfigEntry (config : Config) (configName value : String) : Config :=
  if configName = "isTopSpine" then
    { config with isTopSpine := value = "True" }
  else if configName = "tier" then
    let tierValue := to_uint8 (atoi value)
    { config with tier := tierValue, isLeaf := tierValue = 1 }
  else config

/-- readConfigurationFile (config.c lines 52-101) at the key/value
granularity: the file is none when fopen fails, in which case the function
returns at once and the configuration is left untouched (the function is
total: no exit path); otherwise each key:value line is processed in order.
The strtok split of a raw line into key and value is pre-applied. -/
def readConfigurationFile (config : Config) (file : Option (List (String × String))) : Config :=
  match file with
  | none => config
  | some entries => entries.foldl (fun c kv => processConfigEntry c kv.1 kv.2) config

/-- The zero-initialized Config of main.c (Config mtpConfig = \x7b0\x7d). -/
def zeroConfig : Config :=
  { isLeaf := false, isTopSpine := false, tier := 0, computeIntfName := "" }

theorem mem_modify_control_port {l : List ControlPort} {n : String} {f : ControlPort → ControlPort}
    {x : ControlPort} (hx : x ∈ modify_control_port l n f) : x ∈ l ∨ ∃ c, c ∈ l ∧ x = f c := by
  induction l with
  | nil => simp [modify_control_port] at hx
  | cons c rest ih =>
    rw [modify_control_port] at hx
    split at hx
    · rcases List.mem_cons.mp hx with h1 | h1
      · exact Or.inr ⟨c, List.mem_cons_self c rest, h1⟩
      · exact Or.inl (List.mem_cons_of_mem c h1)
    · rcases List.mem_cons.mp hx with h1 | h1
      · exact Or.inl (h1 ▸ List.mem_cons_self c rest)
      · rcases ih h1 with h2 | ⟨c', hc', hx'⟩
        · exact Or.inl (List.mem_cons_of_mem c h2)
        · exact Or.inr ⟨c', List.mem_cons_of_mem c hc', hx'⟩

theorem mem_modify_offered {l : List VID_offered_port} {n : String}
    {f : VID_offered_port → VID_offered_port} {x : VID_offered_port}
    (hx : x ∈ modify_offered l n f) : x ∈ l ∨ ∃ v, v ∈ l ∧ x = f v := by
  induction l with
  | nil => simp [modify_offered] at hx
  | cons c rest ih =>
    rw [modify_offered] at hx
    split at hx
    · rcases List.mem_cons.mp hx with h1 | h1
      · exact Or.inr ⟨c, List.mem_cons_self c rest, h1⟩
      · exact Or.inl (List.mem_cons_of_mem c h1)
    · rcases List.mem_cons.mp hx with h1 | h1
      · exact Or.inl (h1 ▸ List.mem_cons_self c rest)
      · rcases ih h1 with h2 | ⟨c', hc', hx'⟩
        · exact Or.inl (List.mem_cons_of_mem c h2)
        · exact Or.inr ⟨c', List.mem_cons_of_mem c hc', hx'⟩

theorem find_cp_modify_self {l : List ControlPort} {n : String} {f : ControlPort → ControlPort}
    (hf : ∀ c, (f c).port_name = c.port_name) :
    find_control_port_by_name (modify_control_port l n f) n =
      (find_control_port_by_name l n).map f := by
  induction l with
  | nil => simp [modify_control_port, find_control_port_by_name]
  | cons c rest ih =>
    rw [modify_control_port]
    by_cases h : c.port_name = n
    · simp [h, find_control_port_by_name, hf c]
    · simp [h, find_control_port_by_name, ih]

theorem find_cp_modify_ne {l : List ControlPort} {n p : String} {f : ControlPort → ControlPort}
    (hne : p ≠ n) (hf : ∀ c, (f c).port_name = c.port_name) :
    find_control_port_by_name (modify_control_port l n f) p =
      find_control_port_by_name l p := by
  induction l with
  | nil => simp [modify_control_port]
  | cons c rest ih =>
    rw [modify_control_port]
    by_cases h : c.port_name = n
    · have h1 : (f c).port_name ≠ p := by rw [hf c, h]; exact fun hc => hne hc.symm
      have h2 : c.port_name ≠ p := by rw [h]; exact fun hc => hne hc.symm
      simp [find_control_port_by_name, h, h1, h2, Ne.symm hne]
    · by_cases h2 : c.port_name = p
      · simp [find_control_port_by_name, h, h2, hne]
      · simp [find_control_port_by_name, h, h2, ih]

theorem find_cp_map {l : List ControlPort} {p : String} {f : ControlPort → ControlPort}
    (hf : ∀ c, (f c).port_name = c.port_name) :
    find_control_port_by_name (l.map f) p = (find_control_port_by_name l p).map f := by
  induction l with
  | nil => simp [find_control_port_by_name]
  | cons c rest ih =>
    by_cases h : c.port_name = p
    · simp [find_control_port_by_name, hf c, h]
    · simp [find_control_port_by_name, hf c, h, ih]

theorem modify_cp_of_fix {l : List ControlPort} {n : String} {f : ControlPort → ControlPort}
    {c : ControlPort} (hfind : find_control_port_by_name l n = some c) (hfix : f c = c) :
    modify_control_port l n f = l := by
  induction l with
  | nil => simp [find_control_port_by_name] at hfind
  | cons d rest ih =>
    rw [find_control_port_by_name] at hfind
    rw [modify_control_port]
    by_cases h : d.port_name = n
    · simp [h] at hfind
      simp [h, hfind ▸ hfix]
    · simp [h] at hfind
      simp [h, ih hfind]

theorem mem_add_VID_if_absent {l : List String} {v x : String} :
    x ∈ add_VID_if_absent l v ↔ x ∈ l ∨ x = v := by
  rw [add_VID_if_absent]
  by_cases h : v ∈ l
  · simp only [if_pos h]
    constructor
    · exact Or.inl
    · rintro (hx | rfl)
      · exact hx
      · exact h
  · simp [if_neg h]

theorem mem_add_VIDs_of_mem {vids : List String} {l : List String} {x : String}
    (hx : x ∈ l) : x ∈ add_VIDs vids l := by
  induction vids generalizing l with
  | nil => exact hx
  | cons v rest ih =>
    rw [add_VIDs, List.foldl_cons]
    exact ih (mem_add_VID_if_absent.mpr (Or.inl hx))

theorem mem_add_VIDs_of_mem_vids {vids : List String} {l : List String} {x : String}
    (hx : x ∈ vids) : x ∈ add_VIDs vids l := by
  induction vids generalizing l with
  | nil => simp at hx
  | cons v rest ih =>
    rw [add_VIDs, List.foldl_cons]
    rcases List.mem_cons.mp hx with rfl | h
    · exact mem_add_VIDs_of_mem (mem_add_VID_if_absent.mpr (Or.inr rfl))
    · exact ih h

theorem add_VIDs_eq_of_subset {vids : List String} {l : List String}
    (h : ∀ v ∈ vids, v ∈ l) : add_VIDs vids l = l := by
  induction vids with
  | nil => rfl
  | cons v rest ih =>
    rw [add_VIDs, List.foldl_cons]
    have h1 : add_VID_if_absent l v = l := by
      rw [add_VID_if_absent, if_pos (h v (List.mem_cons_self v rest))]
    rw [h1]
    exact ih (fun w hw => h w (List.mem_cons_of_mem v hw))

theorem add_VIDs_idem (vids : List String) (l : List String) :
    add_VIDs vids (add_VIDs vids l) = add_VIDs vids l :=
  add_VIDs_eq_of_subset (fun _ hv => mem_add_VIDs_of_mem_vids hv)

theorem find_accepted_modify_isSome {l : List VID_accepted_port} {n p : String}
    (f : VID_accepted_port → VID_accepted_port)
    (hf : ∀ v, (f v).port_name = v.port_name) :
    (find_accepted_port_by_name (modify_accepted l n f) p).isSome =
      (find_accepted_port_by_name l p).isSome := by
  induction l with
  | nil => simp [modify_accepted]
  | cons v rest ih =>
    rw [modify_accepted]
    by_cases h : v.port_name = n
    · simp only [if_pos h, find_accepted_port_by_name, hf v]
      by_cases h2 : v.port_name = p
      · simp [h2]
      · simp [h2]
    · simp only [if_neg h, find_accepted_port_by_name]
      by_cases h2 : v.port_name = p
      · simp [h2]
      · simp [h2, ih]

theorem find_offered_modify_isSome {l : List VID_offered_port} {n p : String}
    (f : VID_offered_port → VID_offered_port)
    (hf : ∀ v, (f v).port_name = v.port_name) :
    (find_offered_port_by_name (modify_offered l n f) p).isSome =
      (find_offered_port_by_name l p).isSome := by
  induction l with
  | nil => simp [modify_offered]
  | cons v rest ih =>
    rw [modify_offered]
    by_cases h : v.port_name = n
    · simp only [if_pos h, find_offered_port_by_name, hf v]
      by_cases h2 : v.port_name = p
      · simp [h2]
      · simp [h2]
    · simp only [if_neg h, find_offered_port_by_name]
      by_cases h2 : v.port_name = p
      · simp [h2]
      · simp [h2, ih]

theorem modify_accepted_modify_accepted {l : List VID_accepted_port} {n : String}
    {f g : VID_accepted_port → VID_accepted_port}
    (hf : ∀ v, (f v).port_name = v.port_name) :
    modify_accepted (modify_accepted l n f) n g = modify_accepted l n (fun v => g (f v)) := by
  induction l with
  | nil => simp [modify_accepted]
  | cons v rest ih =>
    rw [modify_accepted]
    by_cases h : v.port_name = n
    · simp [modify_accepted, h, hf v]
    · simp [modify_accepted, h, ih]

theorem modify_offered_modify_offered {l : List VID_offered_port} {n : String}
    {f g : VID_offered_port → VID_offered_port}
    (hf : ∀ v, (f v).port_name = v.port_name) :
    modify_offered (modify_offered l n f) n g = modify_offered l n (fun v => g (f v)) := by
  induction l with
  | nil => simp [modify_offered]
  | cons v rest ih =>
    rw [modify_offered]
    by_cases h : v.port_name = n
    · simp [modify_offered, h, hf v]
    · simp [modify_offered, h, ih]

theorem modify_accepted_congr {l : List VID_accepted_port} {n : String}
    {f g : VID_accepted_port → VID_accepted_port} (h : ∀ v, f v = g v) :
    modify_accepted l n f = modify_accepted l n g := by
  induction l with
  | nil => rfl
  | cons v rest ih =>
    rw [modify_accepted, modify_accepted]
    by_cases hv : v.port_name = n
    · simp [hv, h v]
    · simp [hv, ih]

theorem modify_offered_congr {l : List VID_offered_port} {n : String}
    {f g : VID_offered_port → VID_offered_port} (h : ∀ v, f v = g v) :
    modify_offered l n f = modify_offered l n g := by
  induction l with
  | nil => rfl
  | cons v rest ih =>
    rw [modify_offered, modify_offered]
    by_cases hv : v.port_name = n
    · simp [hv, h v]
    · simp [hv, ih]

theorem clean_get_unreachable_nil {vops : List VID_offered_port}
    (h : is_unreachable_and_reachable_empty vops = true) :
    get_unreachable_VIDs_from_offered_ports vops = [] := by
  induction vops with
  | nil => rfl
  | cons v rest ih =>
    rw [is_unreachable_and_reachable_empty, List.all_cons] at h
    rcases Bool.and_eq_true_iff.mp h with ⟨h1, h2⟩
    rcases Bool.and_eq_true_iff.mp h1 with ⟨_, hut⟩
    rw [get_unreachable_VIDs_from_offered_ports, List.map_cons, List.flatten_cons]
    rw [List.isEmpty_iff.mp hut]
    exact ih h2

theorem keep_alive_port_detect_id {now : Int} {c : ControlPort}
    (h : c.fail_type = FailType.DETECT_FAIL) : keep_alive_port now c = c := by
  rw [keep_alive_port, if_pos h]

theorem keep_alive_port_last_received {now : Int} {c : ControlPort}
    (h : c.fail_type ≠ FailType.DETECT_FAIL) :
    (keep_alive_port now c).last_received_time = now := by
  rw [keep_alive_port, if_neg h]

theorem keep_alive_port_port_name (now : Int) (c : ControlPort) :
    (keep_alive_port now c).port_name = c.port_name := by
  rw [keep_alive_port]
  split
  · rfl
  · dsimp only
    split
    · split
      · rfl
      · rfl
    · rfl

theorem keep_alive_port_start (now : Int) (c : ControlPort) :
    (keep_alive_port now c).start = c.start := by
  rw [keep_alive_port]
  split
  · rfl
  · dsimp only
    split
    · split
      · rfl
      · rfl
    · rfl

/-- The concrete state of the C3 counterexample: one started control port
that is down with fail_type DETECT_FAIL and last_received_time 5. -/
def detectFailPort : ControlPort :=
  { port_name := "p", isUP := false, start := true, last_sent_time := 0,
    last_received_time := 5, fail_type := FailType.DETECT_FAIL, continue_count := 0 }

/-- State holding only detectFailPort, with empty VID tables. -/
def detectFailState : MTPState :=
  { config := zeroConfig, cps := [detectFailPort], vaps := [], vops := [] }

/-- C3 counterexample: a KEEP_ALIVE received on a known control port whose
fail_type is DETECT_FAIL does NOT set last_received_time to the current
timestamp (it stays 5 instead of becoming 100), refuting the claim that the
handler refreshes it regardless of fail_type. -/
theorem keep_alive_refresh_claim_false :
    (find_control_port_by_name detectFailState.cps "p").isSome = true
    ∧ detectFailPort.fail_type = FailType.DETECT_FAIL
    ∧ (find_control_port_by_name (handle_receive_keep_alive detectFailState "p" 100).cps "p").map
        ControlPort.last_received_time = some 5
    ∧ (find_control_port_by_name (handle_receive_keep_alive detectFailState "p" 100).cps "p").map
        ControlPort.last_received_time ≠ some 100 := by
  refine ⟨rfl, rfl, rfl, ?_⟩
  decide

/-- C3 (amended): for every KEEP_ALIVE received on a known control port, the
handler sets that port's last_received_time to the current timestamp
regardless of the isUP flag and of a MISS_FAIL fail_type (which it clears);
but when fail_type is DETECT_FAIL the handler returns at once and the state,
last_received_time included, is unchanged. -/
theorem keep_alive_refresh_amended (st : MTPState) (p : String) (now : Int)
    (cp : ControlPort) (hfind : find_control_port_by_name st.cps p = some cp) :
    (cp.fail_type ≠ FailType.DETECT_FAIL →
      (find_control_port_by_name (handle_receive_keep_alive st p now).cps p).map
        ControlPort.last_received_time = some now)
    ∧ (cp.fail_type = FailType.DETECT_FAIL → handle_receive_keep_alive st p now = st) := by
  constructor
  · intro hft
    rw [handle_receive_keep_alive]
    simp only [hfind]
    rw [find_cp_modify_self (keep_alive_port_port_name now), hfind]
    simp [keep_alive_port_last_received hft]
  · intro hft
    rw [handle_receive_keep_alive]
    simp only [hfind]
    have hmod : modify_control_port st.cps p (keep_alive_port now) = st.cps :=
      modify_cp_of_fix hfind (keep_alive_port_detect_id hft)
    rw [hmod]

/-- Concrete witness for the amended C3 theorem: a port with MISS_FAIL gets
its last_received_time refreshed to the received timestamp. -/
def missFailPort : ControlPort :=
  { port_name := "p", isUP := false, start := true, last_sent_time := 0,
    last_received_time := 5, fail_type := FailType.MISS_FAIL, continue_count := 0 }

/-- State holding only missFailPort, with empty VID tables. -/
def missFailState : MTPState :=
  { config := zeroConfig, cps := [missFailPort], vaps := [], vops := [] }

theorem keep_alive_refresh_witness :
    (find_control_port_by_name (handle_receive_keep_alive missFailState "p" 100).cps "p").map
      ControlPort.last_received_time = some 100 :=
  (keep_alive_refresh_amended missFailState "p" 100 missFailPort rfl).1 (by decide)

/-- C9: for a configuration line tier:v, readConfigurationFile stores
tier = atoi(v) mod 256 (truncation of the atoi result to uint8_t) and sets
isLeaf exactly when that truncated value is 1; in particular the value 257
classifies the node as a leaf. -/
theorem config_tier_truncated_to_uint8 (c : Config) (v : String) :
    (processConfigEntry c "tier" v).tier = ((atoi v) % 256).toNat
    ∧ ((processConfigEntry c "tier" v).isLeaf = true ↔ (atoi v) % 256 = 1)
    ∧ (processConfigEntry c "tier" "257").isLeaf = true := by
  have hne : ("tier" : String) ≠ "isTopSpine" := by decide
  refine ⟨?_, ?_, ?_⟩
  · simp [processConfigEntry, hne, to_uint8]
  · constructor
    · intro h
      have h2 : to_uint8 (atoi v) = 1 := by
        by_contra hc
        simp [processConfigEntry, hne, hc] at h
      rw [to_uint8] at h2
      omega
    · intro h
      have h2 : to_uint8 (atoi v) = 1 := by rw [to_uint8]; omega
      simp [processConfigEntry, hne, h2]
  · have h2 : to_uint8 (atoi "257") = 1 := by decide
    simp [processConfigEntry, hne, h2]

/-- C10: when the configuration file cannot be opened, readConfigurationFile
returns with the Config structure untouched; starting from the
zero-initialized configuration of main.c the daemon therefore keeps tier 0,
is not a leaf and is not a top spine, and the function terminates normally
(it is total, with no exit path). -/
theorem config_unopenable_file_unchanged (c : Config) :
    readConfigurationFile c none = c
    ∧ (readConfigurationFile zeroConfig none).tier = 0
    ∧ (readConfigurationFile zeroConfig none).isLeaf = false
    ∧ (readConfigurationFile zeroConfig none).isTopSpine = false :=
  ⟨rfl, rfl, rfl, rfl⟩

/-- Reach test used for concrete data-plane examples: every offered VID set
can reach every destination (the spec leaves the test abstract). -/
def reachAll : List String → String → Bool := fun _ _ => true

/-- C1 counterexample state: a spine whose accepted entry for VID 4 sits on
the down port d, while the up offered port u is available. -/
def spineFwdState : MTPState :=
  { config := { isLeaf := false, isTopSpine := false, tier := 2, computeIntfName := "None" },
    cps := [
      { port_name := "d", isUP := false, start := true, last_sent_time := 0,
        last_received_time := 1, fail_type := FailType.MISS_FAIL, continue_count := 0 },
      { port_name := "u", isUP := true, start := true, last_sent_time := 0,
        last_received_time := 1, fail_type := FailType.NO_FAIL, continue_count := 0 } ],
    vaps := [ { port_name := "d", VIDs := ["4"], ut := [], cpSet := true } ],
    vops := [ { port_name := "u", VIDs := ["1"], rt := [], ut := [], cpSet := true } ] }

/-- C1 counterexample: a DATA_MSG for VID 4 arrives at the spine of
spineFwdState.  An accepted entry for VID 4 exists but its port is down; the
claim then requires the Jenkins-hash selection over the one available offered
port, yet the code dumps the packet (returns no egress port). -/
theorem spine_data_forward_claim_false :
    (find_accepted_port_by_VID spineFwdState.vaps "4").isSome = true
    ∧ control_port_isUP spineFwdState "d" = false
    ∧ (count_available_offered_port reachAll spineFwdState "4").length = 1
    ∧ handle_receive_data_msg_spine reachAll spineFwdState "4" [10, 11, 12, 13] = none := by
  refine ⟨by decide, by decide, by decide, by decide⟩

/-- C1 (amended): for a DATA_MSG received at a spine, when some accepted
entry's VID set contains dest_VID the packet is forwarded out that entry's
port exactly when the port is up and the entry's unreachable sub-table does
not contain the port's own name (the string the C code passes to
find_unreachable_VID_by_name), and otherwise the packet is dropped with no
multipath fallback; only when no accepted entry contains dest_VID is the
Jenkins-hash selection over the available offered ports used, and then the
packet is dropped exactly when zero offered ports are available. -/
theorem spine_data_forward_characterized (couldReach : List String → String → Bool)
    (st : MTPState) (dest : String) (bytes : List Nat) :
    (∀ vap, find_accepted_port_by_VID st.vaps dest = some vap →
      handle_receive_data_msg_spine couldReach st dest bytes =
        (if control_port_isUP st vap.port_name = true ∧ vap.port_name ∉ vap.ut
         then some vap.port_name else none))
    ∧ (find_accepted_port_by_VID st.vaps dest = none →
        (handle_receive_data_msg_spine couldReach st dest bytes = none ↔
          count_available_offered_port couldReach st dest = [])
        ∧ (count_available_offered_port couldReach st dest ≠ [] →
            handle_receive_data_msg_spine couldReach st dest bytes =
              (count_available_offered_port couldReach st dest)[jenkins_one_at_a_time_hash bytes %
                (count_available_offered_port couldReach st dest).length]?)) := by
  constructor
  · intro vap hvap
    rw [handle_receive_data_msg_spine]
    simp only [hvap]
    by_cases hup : control_port_isUP st vap.port_name = true
    · by_cases hmem : vap.port_name ∈ vap.ut
      · have hB : find_unreachable_VID_by_name vap.ut vap.port_name = true := by
          simp [find_unreachable_VID_by_name, hmem]
        rw [if_pos (Or.inr hB), if_neg (fun hc => hc.2 hmem)]
      · have hB : ¬ find_unreachable_VID_by_name vap.ut vap.port_name = true := by
          simp [find_unreachable_VID_by_name, hmem]
        have hA : ¬ control_port_isUP st vap.port_name = false := by simp [hup]
        rw [if_neg (fun hc => Or.elim hc hA hB), if_pos ⟨hup, hmem⟩]
    · have hA : control_port_isUP st vap.port_name = false := by
        cases hb : control_port_isUP st vap.port_name
        · rfl
        · exact absurd hb hup
      rw [if_pos (Or.inl hA), if_neg (fun hc => hup hc.1)]
  · intro hnone
    rw [handle_receive_data_msg_spine]
    simp only [hnone]
    by_cases hlen : (count_available_offered_port couldReach st dest).length = 0
    · have hnil : count_available_offered_port couldReach st dest = [] :=
        List.length_eq_zero.mp hlen
      simp [hlen, hnil]
    · have hpos : 0 < (count_available_offered_port couldReach st dest).length :=
        Nat.pos_of_ne_zero hlen
      have hlt : jenkins_one_at_a_time_hash bytes %
          (count_available_offered_port couldReach st dest).length <
          (count_available_offered_port couldReach st dest).length :=
        Nat.mod_lt _ hpos
      have hnnil : count_available_offered_port couldReach st dest ≠ [] := by
        intro hc
        rw [hc] at hlen
        exact hlen rfl
      simp [hlen, List.getElem?_eq_getElem hlt, hnnil]

/-- C1 amended-theorem witness state: a spine with no accepted entry for VID 4
and one available offered port u. -/
def spineFwdState2 : MTPState :=
  { config := { isLeaf := false, isTopSpine := false, tier := 2, computeIntfName := "None" },
    cps := [
      { port_name := "u", isUP := true, start := true, last_sent_time := 0,
        last_received_time := 1, fail_type := FailType.NO_FAIL, continue_count := 0 } ],
    vaps := [],
    vops := [ { port_name := "u", VIDs := ["1"], rt := [], ut := [], cpSet := true } ] }

theorem spine_data_forward_witness :
    handle_receive_data_msg_spine reachAll spineFwdState2 "4" [10, 11, 12, 13] =
      (count_available_offered_port reachAll spineFwdState2 "4")[jenkins_one_at_a_time_hash
        [10, 11, 12, 13] % (count_available_offered_port reachAll spineFwdState2 "4").length]? :=
  ((spine_data_forward_characterized reachAll spineFwdState2 "4" [10, 11, 12, 13]).2
    (by decide)).2 (by decide)

theorem failure_update_fst (st : MTPState) (q : String) (opt : Nat) (vids : List String) :
    (handle_receive_failure_update st q opt vids).1 =
      if (find_accepted_port_by_name st.vaps q).isSome then
        { st with vaps := modify_accepted st.vaps q (fun v => { v with ut := add_VIDs vids v.ut }) }
      else if (find_offered_port_by_name st.vops q).isSome then
        if opt = UNREACHABLE_OPTION then
          { st with vops := modify_offered st.vops q (fun v => { v with rt := [], ut := add_VIDs vids v.ut }) }
        else
          { st with vops := modify_offered st.vops q (fun v => { v with rt := add_VIDs vids [] }) }
      else st := by
  rw [handle_receive_failure_update]
  by_cases h1 : (find_accepted_port_by_name st.vaps q).isSome
  · rw [if_pos h1, if_pos h1]
  · rw [if_neg h1, if_neg h1]
    by_cases h2 : (find_offered_port_by_name st.vops q).isSome
    · rw [if_pos h2, if_pos h2]
      by_cases h3 : opt = UNREACHABLE_OPTION
      · rw [if_pos h3]
        dsimp only
        split
        · rfl
        · split
          · split
            · rfl
            · rfl
          · rfl
      · rw [if_neg h3]
        dsimp only
        split
        · rfl
        · split
          · split
            · rfl
            · rfl
          · rfl
    · rw [if_neg h2, if_neg h2]

theorem recover_update_fst (st : MTPState) (q : String) (opt : Nat) (vids : List String) :
    (handle_receive_recover_update st q opt vids).1 =
      if (find_accepted_port_by_name st.vaps q).isSome then
        { st with vaps :=
            modify_accepted st.vaps q (fun v => { v with ut := vids.foldl remove_unreachable_VID_by_name v.ut }) }
      else if (find_offered_port_by_name st.vops q).isSome then
        if opt = UNREACHABLE_OPTION then
          { st with vops :=
              modify_offered st.vops q (fun v => { v with ut := vids.foldl remove_unreachable_VID_by_name v.ut }) }
        else
          { st with vops := modify_offered st.vops q (fun v => { v with rt := [] }) }
      else st := by
  rw [handle_receive_recover_update]
  by_cases h1 : (find_accepted_port_by_name st.vaps q).isSome
  · rw [if_pos h1, if_pos h1]
  · rw [if_neg h1, if_neg h1]
    by_cases h2 : (find_offered_port_by_name st.vops q).isSome
    · rw [if_pos h2, if_pos h2]
      by_cases h3 : opt = UNREACHABLE_OPTION
      · rw [if_pos h3]
        dsimp only
        split
        · rfl
        · split
          · rfl
          · split
            · rfl
            · rfl
      · rw [if_neg h3]
        dsimp only
        split
        · rfl
        · split
          · split
            · rfl
            · rfl
          · rfl
    · rw [if_neg h2, if_neg h2]

theorem mem_foldl_remove {vids : List String} {l : List String} {x : String}
    (hx : x ∈ vids.foldl remove_unreachable_VID_by_name l) : x ∈ l := by
  induction vids generalizing l with
  | nil => exact hx
  | cons v rest ih =>
    rw [List.foldl_cons] at hx
    exact List.mem_of_mem_filter (ih hx)

/-- P2 of the spec for a list of offered entries: no VID is in both the
reachable and the unreachable sub-table of the same entry. -/
def offered_lists_disjoint (vops : List VID_offered_port) : Prop :=
  ∀ v ∈ vops, ∀ x ∈ v.rt, x ∉ v.ut

/-- P2 of the spec on a daemon state. -/
def offered_disjoint (st : MTPState) : Prop :=
  offered_lists_disjoint st.vops

instance (vops : List VID_offered_port) : Decidable (offered_lists_disjoint vops) := by
  unfold offered_lists_disjoint
  infer_instance

instance (st : MTPState) : Decidable (offered_disjoint st) := by
  unfold offered_disjoint
  infer_instance

/-- Configuration of a mid-tier spine, used by concrete examples. -/
def spineCfg : Config :=
  { isLeaf := false, isTopSpine := false, tier := 2, computeIntfName := "None" }

/-- C2 counterexample: from startup, a spine that completes a Join-Ack on port
q, receives FAILURE_UPDATE(UNREACHABLE, 1) on q and then
FAILURE_UPDATE(REACHABLE, 1) on q ends the iteration with VID 1 in both the
reachable and the unreachable sub-table of q (the reachable-option branch of
handle_receive_failure_update does not clear the unreachable sub-table). -/
theorem offered_disjoint_claim_false :
    ∃ v ∈ (run spineCfg ["q"] [Event.joinAck "q" ["1"],
        Event.failureUpdate "q" UNREACHABLE_OPTION ["1"],
        Event.failureUpdate "q" REACHABLE_OPTION ["1"]]).vops,
      ∃ x ∈ v.rt, x ∈ v.ut := by
  decide

/-- C2 (amended): the reachable/unreachable disjointness of the offered
sub-tables is preserved by every FAILURE_UPDATE with option UNREACHABLE and
by every RECOVER_UPDATE (either option); only a FAILURE_UPDATE with option
REACHABLE can break it, because its handler inserts into the reachable
sub-table without removing the same VIDs from the unreachable one. -/
theorem offered_disjoint_preserved_amended (st : MTPState) (q : String) (vids : List String)
    (opt : Nat) (h : offered_disjoint st) :
    offered_disjoint (handle_receive_failure_update st q UNREACHABLE_OPTION vids).1
    ∧ offered_disjoint (handle_receive_recover_update st q opt vids).1 := by
  constructor
  · rw [offered_disjoint, failure_update_fst]
    split
    · exact h
    · split
      · rw [if_pos rfl]
        intro v hv x hx
        rcases mem_modify_offered hv with hmem | ⟨w, _, rfl⟩
        · exact h v hmem x hx
        · exact absurd hx (List.not_mem_nil x)
      · exact h
  · rw [offered_disjoint, recover_update_fst]
    split
    · exact h
    · split
      · split
        · intro v hv x hx
          rcases mem_modify_offered hv with hmem | ⟨w, hw, rfl⟩
          · exact h v hmem x hx
          · intro hxu
            exact h w hw x hx (mem_foldl_remove hxu)
        · intro v hv x hx
          rcases mem_modify_offered hv with hmem | ⟨w, _, rfl⟩
          · exact h v hmem x hx
          · exact absurd hx (List.not_mem_nil x)
      · exact h

theorem offered_disjoint_witness :
    offered_disjoint (handle_receive_failure_update spineFwdState "u" UNREACHABLE_OPTION ["4"]).1 :=
  (offered_disjoint_preserved_amended spineFwdState "u" ["4"] REACHABLE_OPTION (by decide)).1

/-- C7: applying the same FAILURE_UPDATE twice in a row leaves the state (the
accepted-port unreachable sub-tables and the offered-port reachable and
unreachable sub-tables included) exactly as applying it once: the unreachable
insertions are set insertions and the reachable branch rebuilds the reachable
sub-table from scratch. -/
theorem failure_update_idempotent (st : MTPState) (q : String) (opt : Nat) (vids : List String) :
    (handle_receive_failure_update (handle_receive_failure_update st q opt vids).1 q opt vids).1 =
      (handle_receive_failure_update st q opt vids).1 := by
  have hfa : ∀ (v : VID_accepted_port),
      ((fun (w : VID_accepted_port) => { w with ut := add_VIDs vids w.ut }) v).port_name = v.port_name :=
    fun _ => rfl
  have hfo1 : ∀ (v : VID_offered_port),
      ((fun (w : VID_offered_port) => { w with rt := [], ut := add_VIDs vids w.ut }) v).port_name = v.port_name :=
    fun _ => rfl
  have hfo2 : ∀ (v : VID_offered_port),
      ((fun (w : VID_offered_port) => { w with rt := add_VIDs vids [] }) v).port_name = v.port_name :=
    fun _ => rfl
  by_cases h1 : (find_accepted_port_by_name st.vaps q).isSome
  · have e1 : (handle_receive_failure_update st q opt vids).1 =
        { st with vaps := modify_accepted st.vaps q (fun w => { w with ut := add_VIDs vids w.ut }) } := by
      rw [failure_update_fst, if_pos h1]
    have h1' : (find_accepted_port_by_name
        (modify_accepted st.vaps q (fun w => { w with ut := add_VIDs vids w.ut })) q).isSome = true := by
      rw [find_accepted_modify_isSome _ hfa]
      exact h1
    have hm : modify_accepted (modify_accepted st.vaps q (fun w => { w with ut := add_VIDs vids w.ut })) q
        (fun w => { w with ut := add_VIDs vids w.ut }) =
        modify_accepted st.vaps q (fun w => { w with ut := add_VIDs vids w.ut }) := by
      rw [modify_accepted_modify_accepted hfa]
      apply modify_accepted_congr
      intro v
      show ({ v with ut := add_VIDs vids (add_VIDs vids v.ut) } : VID_accepted_port) =
        { v with ut := add_VIDs vids v.ut }
      rw [add_VIDs_idem]
    rw [e1, failure_update_fst, if_pos h1']
    exact congrArg (fun x => ({ st with vaps := x } : MTPState)) hm
  · by_cases h2 : (find_offered_port_by_name st.vops q).isSome
    · by_cases h3 : opt = UNREACHABLE_OPTION
      · subst h3
        have e1 : (handle_receive_failure_update st q UNREACHABLE_OPTION vids).1 =
            { st with vops := modify_offered st.vops q (fun w => { w with rt := [], ut := add_VIDs vids w.ut }) } := by
          rw [failure_update_fst, if_neg h1, if_pos h2, if_pos rfl]
        have h2' : (find_offered_port_by_name
            (modify_offered st.vops q (fun w => { w with rt := [], ut := add_VIDs vids w.ut }))
            q).isSome = true := by
          rw [find_offered_modify_isSome _ hfo1]
          exact h2
        have hm : modify_offered (modify_offered st.vops q
              (fun w => { w with rt := ([] : List String), ut := add_VIDs vids w.ut })) q
            (fun w => { w with rt := ([] : List String), ut := add_VIDs vids w.ut }) =
            modify_offered st.vops q (fun w => { w with rt := [], ut := add_VIDs vids w.ut }) := by
          rw [modify_offered_modify_offered hfo1]
          apply modify_offered_congr
          intro v
          show ({ v with rt := ([] : List String), ut := add_VIDs vids (add_VIDs vids v.ut) } : VID_offered_port) =
            { v with rt := [], ut := add_VIDs vids v.ut }
          rw [add_VIDs_idem]
        rw [e1, failure_update_fst, if_neg h1, if_pos h2', if_pos rfl]
        exact congrArg (fun x => ({ st with vops := x } : MTPState)) hm
      · have e1 : (handle_receive_failure_update st q opt vids).1 =
            { st with vops := modify_offered st.vops q (fun w => { w with rt := add_VIDs vids [] }) } := by
          rw [failure_update_fst, if_neg h1, if_pos h2, if_neg h3]
        have h2' : (find_offered_port_by_name
            (modify_offered st.vops q (fun w => { w with rt := add_VIDs vids [] })) q).isSome = true := by
          rw [find_offered_modify_isSome _ hfo2]
          exact h2
        have hm : modify_offered (modify_offered st.vops q
              (fun w => { w with rt := add_VIDs vids [] })) q
            (fun w => { w with rt := add_VIDs vids [] }) =
            modify_offered st.vops q (fun w => { w with rt := add_VIDs vids [] }) := by
          rw [modify_offered_modify_offered hfo2]
        rw [e1, failure_update_fst, if_neg h1, if_pos h2', if_neg h3]
        exact congrArg (fun x => ({ st with vops := x } : MTPState)) hm
    · have e1 : (handle_receive_failure_update st q opt vids).1 = st := by
        rw [failure_update_fst, if_neg h1, if_neg h2]
      rw [e1]
      exact e1

theorem mem_filter_map {α : Type} {l : List α} {p : α → Bool} {g : α → SentMsg} {m : SentMsg} :
    m ∈ (l.filter p).map g ↔ ∃ a ∈ l, p a = true ∧ m = g a := by
  simp only [List.mem_map, List.mem_filter]
  constructor
  · rintro ⟨a, ⟨h1, h2⟩, h3⟩
    exact ⟨a, h1, h2, h3.symm⟩
  · rintro ⟨a, h1, h2, h3⟩
    exact ⟨a, ⟨h1, h2⟩, h3.symm⟩

/-- C6 counterexample state: a non-leaf spine with an up accepted port a and
two offered ports, q dirty in its reachable sub-table, r dirty in its
unreachable sub-table. -/
def recoverCexState : MTPState :=
  { config := spineCfg,
    cps := [
      { port_name := "q", isUP := true, start := true, last_sent_time := 0,
        last_received_time := 1, fail_type := FailType.NO_FAIL, continue_count := 0 },
      { port_name := "r", isUP := true, start := true, last_sent_time := 0,
        last_received_time := 1, fail_type := FailType.NO_FAIL, continue_count := 0 },
      { port_name := "a", isUP := true, start := true, last_sent_time := 0,
        last_received_time := 1, fail_type := FailType.NO_FAIL, continue_count := 0 } ],
    vaps := [ { port_name := "a", VIDs := ["1"], ut := [], cpSet := true } ],
    vops := [ { port_name := "q", VIDs := ["5"], rt := ["2"], ut := [], cpSet := true },
              { port_name := "r", VIDs := ["6"], rt := [], ut := ["3"], cpSet := true } ] }

/-- C6 counterexample: a RECOVER_UPDATE with option REACHABLE received on
offered port q of the non-leaf recoverCexState finds the offered sub-tables
dirty before and leaves them dirty after, and an up accepted port exists, yet
the handler emits nothing - refuting the claim that a dirty-to-dirty
transition re-propagates the delta out every up accepted port. -/
theorem recover_update_claim_false :
    (find_accepted_port_by_name recoverCexState.vaps "q").isSome = false
    ∧ (find_offered_port_by_name recoverCexState.vops "q").isSome = true
    ∧ recoverCexState.config.isLeaf = false
    ∧ is_unreachable_and_reachable_empty recoverCexState.vops = false
    ∧ is_unreachable_and_reachable_empty
        (handle_receive_recover_update recoverCexState "q" REACHABLE_OPTION ["2"]).1.vops = false
    ∧ (recoverCexState.vaps.filter (fun v => control_port_isUP recoverCexState v.port_name)) ≠ []
    ∧ (handle_receive_recover_update recoverCexState "q" REACHABLE_OPTION ["2"]).2 = [] := by
  refine ⟨by decide, by decide, rfl, by decide, by decide, by decide, by decide⟩

/-- C6 (amended): for a RECOVER_UPDATE received on an upstream (offered) port
of a non-leaf node, with option UNREACHABLE: a dirty-before/dirty-after
transition re-propagates the received delta out every up accepted port, and a
dirty-to-clean transition still sends (the received VIDs plus the recomputed,
then empty, unreachable set); a clean-before state emits nothing.  With
option REACHABLE the handler never emits anything: the dirty-to-dirty branch
does not exist for it, and on dirty-to-clean the recomputed unreachable set
is empty so the send is skipped. -/
theorem recover_update_propagation_amended (st : MTPState) (q : String) (vids : List String)
    (opt : Nat)
    (hacc : (find_accepted_port_by_name st.vaps q).isSome = false)
    (hoff : (find_offered_port_by_name st.vops q).isSome = true)
    (hleaf : st.config.isLeaf = false) :
    (opt = UNREACHABLE_OPTION → is_unreachable_and_reachable_empty st.vops = false →
      ((is_unreachable_and_reachable_empty
          (handle_receive_recover_update st q opt vids).1.vops = false →
        ∀ m, m ∈ (handle_receive_recover_update st q opt vids).2 ↔
          ∃ v ∈ st.vaps, control_port_isUP st v.port_name = true ∧
            m = ⟨v.port_name, MsgKind.RECOVER_UPDATE, UNREACHABLE_OPTION, vids⟩)
      ∧ (is_unreachable_and_reachable_empty
          (handle_receive_recover_update st q opt vids).1.vops = true →
        ∀ m, m ∈ (handle_receive_recover_update st q opt vids).2 ↔
          ∃ v ∈ st.vaps, control_port_isUP st v.port_name = true ∧
            m = ⟨v.port_name, MsgKind.RECOVER_UPDATE, UNREACHABLE_OPTION,
              vids ++ get_unreachable_VIDs_from_offered_ports
                (handle_receive_recover_update st q opt vids).1.vops⟩)))
    ∧ (is_unreachable_and_reachable_empty st.vops = true →
        (handle_receive_recover_update st q opt vids).2 = [])
    ∧ (opt ≠ UNREACHABLE_OPTION → (handle_receive_recover_update st q opt vids).2 = []) := by
  have hacc' : ¬ (find_accepted_port_by_name st.vaps q).isSome = true := by simp [hacc]
  have hleaf' : ¬ st.config.isLeaf = true := by simp [hleaf]
  refine ⟨?_, ?_, ?_⟩
  · intro hopt hb
    subst hopt
    have hfst : (handle_receive_recover_update st q UNREACHABLE_OPTION vids).1 =
        { st with vops :=
            modify_offered st.vops q (fun v => { v with ut := vids.foldl remove_unreachable_VID_by_name v.ut }) } := by
      rw [recover_update_fst, if_neg hacc', if_pos hoff, if_pos rfl]
    constructor
    · intro ha m
      rw [hfst] at ha
      dsimp only at ha
      have hval : handle_receive_recover_update st q UNREACHABLE_OPTION vids =
          ({ st with vops :=
              modify_offered st.vops q (fun v => { v with ut := vids.foldl remove_unreachable_VID_by_name v.ut }) },
            (st.vaps.filter (fun v => control_port_isUP st v.port_name)).map
              (fun v => (⟨v.port_name, MsgKind.RECOVER_UPDATE, UNREACHABLE_OPTION, vids⟩ : SentMsg))) := by
        rw [handle_receive_recover_update, if_neg hacc', if_pos hoff, if_pos rfl]
        dsimp only
        rw [if_neg hleaf', if_pos ⟨hb, ha⟩]
        rfl
      rw [hval]
      exact mem_filter_map
    · intro ha m
      rw [hfst] at ha
      dsimp only at ha
      have hval : handle_receive_recover_update st q UNREACHABLE_OPTION vids =
          ({ st with vops :=
              modify_offered st.vops q (fun v => { v with ut := vids.foldl remove_unreachable_VID_by_name v.ut }) },
            (st.vaps.filter (fun v => control_port_isUP st v.port_name)).map
              (fun v => (⟨v.port_name, MsgKind.RECOVER_UPDATE, UNREACHABLE_OPTION,
                vids ++ get_unreachable_VIDs_from_offered_ports
                  (modify_offered st.vops q
                    (fun w => { w with ut := vids.foldl remove_unreachable_VID_by_name w.ut }))⟩ : SentMsg))) := by
        rw [handle_receive_recover_update, if_neg hacc', if_pos hoff, if_pos rfl]
        dsimp only
        rw [if_neg hleaf', if_neg (fun hc => by rw [ha] at hc; exact absurd hc.2 (by simp)),
          if_pos ⟨hb, ha⟩]
        rfl
      rw [hval]
      dsimp only
      exact mem_filter_map
  · intro hb
    rw [handle_receive_recover_update, if_neg hacc', if_pos hoff]
    by_cases hopt : opt = UNREACHABLE_OPTION
    · rw [if_pos hopt]
      dsimp only
      rw [if_neg hleaf', if_neg (fun hc => by rw [hb] at hc; exact absurd hc.1 (by simp)),
        if_neg (fun hc => by rw [hb] at hc; exact absurd hc.1 (by simp))]
    · rw [if_neg hopt]
      dsimp only
      rw [if_neg hleaf', if_neg (fun hc => by rw [hb] at hc; exact absurd hc.1 (by simp))]
  · intro hopt
    rw [handle_receive_recover_update, if_neg hacc', if_pos hoff, if_neg hopt]
    dsimp only
    rw [if_neg hleaf']
    by_cases hb : is_unreachable_and_reachable_empty st.vops = false
    · by_cases ha : is_unreachable_and_reachable_empty
          (modify_offered st.vops q (fun v => { v with rt := [] })) = true
      · rw [if_pos ⟨hb, ha⟩, clean_get_unreachable_nil ha]
        simp
      · rw [if_neg (fun hc => ha hc.2)]
    · rw [if_neg (fun hc => hb hc.1)]

/-- C6 amended-theorem witness state: recoverCexState with all offered
sub-tables clean. -/
def recoverCleanState : MTPState :=
  { recoverCexState with
    vops := [ { port_name := "q", VIDs := ["5"], rt := [], ut := [], cpSet := true },
              { port_name := "r", VIDs := ["6"], rt := [], ut := [], cpSet := true } ] }

theorem recover_update_witness :
    (handle_receive_recover_update recoverCleanState "q" UNREACHABLE_OPTION ["2"]).2 = [] :=
  (recover_update_propagation_amended recoverCleanState "q" ["2"] UNREACHABLE_OPTION
    (by decide) (by decide) rfl).2.1 (by decide)

/-- C5: when a control port p is marked down (miss or immediate detection),
the failure flood is scoped as follows.  If the node is not a top spine and
all offered ports are now down (isolation, checked first and so taking
precedence), a FAILURE_UPDATE with option REACHABLE carrying every VID of
every accepted entry is sent exactly to the accepted-side ports whose control
port is still up.  Otherwise, if p has an accepted entry, a FAILURE_UPDATE
with option UNREACHABLE carrying p's accepted VIDs is sent exactly to the up
control ports - p itself was just marked down, so this is every other up
control port. -/
theorem port_down_flood_characterized (st : MTPState) (p : String) (ft : FailType) :
    ((mark_port_down st p ft).config.isTopSpine = false ∧
        is_all_offered_ports_down (mark_port_down st p ft) = true →
      ∀ m, m ∈ port_down_failure_sends (mark_port_down st p ft) p ↔
        ∃ v ∈ (mark_port_down st p ft).vaps,
          control_port_isUP (mark_port_down st p ft) v.port_name = true ∧
          m = ⟨v.port_name, MsgKind.FAILURE_UPDATE, REACHABLE_OPTION,
            get_all_accepted_VIDs (mark_port_down st p ft).vaps⟩)
    ∧ (¬((mark_port_down st p ft).config.isTopSpine = false ∧
          is_all_offered_ports_down (mark_port_down st p ft) = true) →
        (find_accepted_port_by_name (mark_port_down st p ft).vaps p).isSome = true →
      ∀ m, m ∈ port_down_failure_sends (mark_port_down st p ft) p ↔
        ∃ c ∈ (mark_port_down st p ft).cps, c.isUP = true ∧
          m = ⟨c.port_name, MsgKind.FAILURE_UPDATE, UNREACHABLE_OPTION,
            get_accepted_VIDs_by_port_name (mark_port_down st p ft).vaps p⟩) := by
  constructor
  · intro hiso m
    rw [port_down_failure_sends, if_pos hiso]
    exact mem_filter_map
  · intro hno hacc m
    rw [port_down_failure_sends, if_neg hno, if_pos hacc]
    exact mem_filter_map

/-- C5 witness state: a non-top spine with one up accepted port a and one
offered port u; marking u down leaves every offered port down. -/
def isolatedState : MTPState :=
  { config := spineCfg,
    cps := [
      { port_name := "a", isUP := true, start := true, last_sent_time := 0,
        last_received_time := 1, fail_type := FailType.NO_FAIL, continue_count := 0 },
      { port_name := "u", isUP := true, start := true, last_sent_time := 0,
        last_received_time := 1, fail_type := FailType.NO_FAIL, continue_count := 0 } ],
    vaps := [ { port_name := "a", VIDs := ["1"], ut := [], cpSet := true } ],
    vops := [ { port_name := "u", VIDs := ["1"], rt := [], ut := [], cpSet := true } ] }

theorem port_down_flood_witness :
    (⟨"a", MsgKind.FAILURE_UPDATE, REACHABLE_OPTION,
        get_all_accepted_VIDs (mark_port_down isolatedState "u" FailType.MISS_FAIL).vaps⟩ : SentMsg) ∈
      port_down_failure_sends (mark_port_down isolatedState "u" FailType.MISS_FAIL) "u" := by
  refine ((port_down_flood_characterized isolatedState "u" FailType.MISS_FAIL).1
    ⟨by decide, by decide⟩ _).mpr ?_
  exact ⟨{ port_name := "a", VIDs := ["1"], ut := [], cpSet := true }, by decide, by decide, rfl⟩

/-- P1 of the spec for one control port: continue_count is at most 3, and a
count of 3 implies the port is up with no recorded failure. -/
def port_invariant_P1 (cp : ControlPort) : Prop :=
  cp.continue_count ≤ 3 ∧ (cp.continue_count = 3 → cp.isUP = true ∧ cp.fail_type = FailType.NO_FAIL)

/-- P1 of the spec on a daemon state. -/
def P1_invariant (st : MTPState) : Prop :=
  ∀ cp ∈ st.cps, port_invariant_P1 cp

theorem keep_alive_port_P1 {now : Int} {c : ControlPort} (h : port_invariant_P1 c) :
    port_invariant_P1 (keep_alive_port now c) := by
  rw [keep_alive_port]
  split
  · exact h
  · rename_i hdet
    dsimp only
    split
    · rename_i hguard
      have hlt : c.continue_count < 3 := hguard.2.2
      split
      · refine ⟨by show c.continue_count + 1 ≤ 3; omega, fun _ => ⟨rfl, ?_⟩⟩
        show (if c.fail_type = FailType.MISS_FAIL then FailType.NO_FAIL else c.fail_type) = FailType.NO_FAIL
        by_cases hm : c.fail_type = FailType.MISS_FAIL
        · rw [if_pos hm]
        · rw [if_neg hm]
          cases hft : c.fail_type
          · rfl
          · exact absurd hft hm
          · exact absurd hft hdet
      · rename_i h3
        refine ⟨by show c.continue_count + 1 ≤ 3; omega, fun hcc => absurd hcc h3⟩
    · rcases h with ⟨hle, h3⟩
      refine ⟨hle, fun hcc => ?_⟩
      have hconc := h3 hcc
      refine ⟨hconc.1, ?_⟩
      show (if c.fail_type = FailType.MISS_FAIL then FailType.NO_FAIL else c.fail_type) = FailType.NO_FAIL
      rw [hconc.2]
      simp

theorem loop_port_check_P1 {alive : List String} {now : Int} {c : ControlPort}
    (h : port_invariant_P1 c) : port_invariant_P1 (loop_port_check alive now c) := by
  have hello_P1 : ∀ (d : ControlPort), port_invariant_P1 d →
      port_invariant_P1 (if now - d.last_sent_time ≥ HELLO_TIMER then { d with last_sent_time := now } else d) := by
    intro d hd
    split
    · exact ⟨hd.1, fun hcc => hd.2 hcc⟩
    · exact hd
  have cont : ∀ (d : ControlPort), port_invariant_P1 d →
      port_invariant_P1 (if d.fail_type ≠ FailType.NO_FAIL then d
        else if now - d.last_received_time ≥ DEAD_TIMER ∧ d.isUP = true then
          { d with continue_count := 0, isUP := false, fail_type := FailType.MISS_FAIL }
        else if now - d.last_sent_time ≥ HELLO_TIMER then { d with last_sent_time := now } else d) := by
    intro d hd
    split
    · exact hd
    · split
      · exact ⟨by show (0:Nat) ≤ 3; omega, fun hcc => absurd (show (0:Nat) = 3 from hcc) (by omega)⟩
      · exact hello_P1 d hd
  rw [loop_port_check]
  split
  · exact h
  · dsimp only
    split
    · refine cont _ ?_
      split
      · exact ⟨by show (0:Nat) ≤ 3; omega, fun hcc => absurd (show (0:Nat) = 3 from hcc) (by omega)⟩
      · split
        · exact ⟨h.1, fun hcc => ⟨(h.2 hcc).1, rfl⟩⟩
        · exact h
    · exact hello_P1 _ h

theorem failure_update_fst_cps (st : MTPState) (q : String) (opt : Nat) (vids : List String) :
    (handle_receive_failure_update st q opt vids).1.cps = st.cps := by
  rw [failure_update_fst]
  split
  · rfl
  · split
    · split
      · rfl
      · rfl
    · rfl

theorem recover_update_fst_cps (st : MTPState) (q : String) (opt : Nat) (vids : List String) :
    (handle_receive_recover_update st q opt vids).1.cps = st.cps := by
  rw [recover_update_fst]
  split
  · rfl
  · split
    · split
      · rfl
      · rfl
    · rfl

theorem step_P1 (st : MTPState) (e : Event) (h : P1_invariant st) : P1_invariant (step st e) := by
  cases e with
  | helloNR p t vids => exact h
  | joinReq p vids => exact h
  | joinRes p vids => exact h
  | joinAck p vids =>
    show P1_invariant (handle_receive_join_ack st p vids)
    rw [handle_receive_join_ack]
    dsimp only
    split
    · split
      · exact h
      · intro cp hcp
        rcases mem_modify_control_port hcp with hmem | ⟨d, hd, rfl⟩
        · exact h cp hmem
        · exact ⟨(h d hd).1, fun hcc => ⟨rfl, ((h d hd).2 hcc).2⟩⟩
    · exact h
  | startHello p =>
    intro cp hcp
    rcases mem_modify_control_port hcp with hmem | ⟨d, hd, rfl⟩
    · exact h cp hmem
    · exact ⟨(h d hd).1, fun hcc => ⟨rfl, ((h d hd).2 hcc).2⟩⟩
  | dataMsg p now =>
    intro cp hcp
    rcases mem_modify_control_port hcp with hmem | ⟨d, hd, rfl⟩
    · exact h cp hmem
    · exact ⟨(h d hd).1, fun hcc => (h d hd).2 hcc⟩
  | keepAlive p now =>
    show P1_invariant (handle_receive_keep_alive st p now)
    rw [handle_receive_keep_alive]
    split
    · intro cp hcp
      rcases mem_modify_control_port hcp with hmem | ⟨d, hd, rfl⟩
      · exact h cp hmem
      · exact keep_alive_port_P1 (h d hd)
    · exact h
  | failureUpdate p opt vids =>
    show P1_invariant (handle_receive_failure_update st p opt vids).1
    intro cp hcp
    rw [failure_update_fst_cps] at hcp
    exact h cp hcp
  | recoverUpdate p opt vids =>
    show P1_invariant (handle_receive_recover_update st p opt vids).1
    intro cp hcp
    rw [recover_update_fst_cps] at hcp
    exact h cp hcp
  | loopCheck alive now =>
    intro cp hcp
    rcases List.mem_map.mp hcp with ⟨d, hd, rfl⟩
    exact loop_port_check_P1 (h d hd)

theorem P1_initState (cfg : Config) (names : List String) :
    P1_invariant (initState cfg names) := by
  intro cp hcp
  rcases List.mem_map.mp hcp with ⟨n, _, rfl⟩
  exact ⟨by show (0:Nat) ≤ 3; omega, fun hcc => absurd (show (0:Nat) = 3 from hcc) (by omega)⟩

/-- C4: after every event-loop iteration - that is, in every state reached
from startup by any sequence of received MTP messages and liveness passes -
every control port has continue_count between 0 and 3, and a count of 3
implies the port is up with fail_type none: failure detection resets the
count to 0 when marking a port down, and the recovery transition turns the
port on (with MISS_FAIL already cleared) exactly when the count reaches 3. -/
theorem continue_count_invariant_holds (cfg : Config) (names : List String) (events : List Event) :
    P1_invariant (run cfg names events) := by
  have main : ∀ (evs : List Event) (st : MTPState), P1_invariant st →
      P1_invariant (evs.foldl step st) := by
    intro evs
    induction evs with
    | nil => intro st hst; exact hst
    | cons e rest ih => intro st hst; exact ih (step st e) (step_P1 st e hst)
  exact main events (initState cfg names) (P1_initState cfg names)

theorem continue_count_invariant_witness :
    P1_invariant (run spineCfg ["q"] [Event.startHello "q", Event.keepAlive "q" 100,
      Event.loopCheck ["q"] 2100]) :=
  continue_count_invariant_holds spineCfg ["q"] [Event.startHello "q", Event.keepAlive "q" 100,
    Event.loopCheck ["q"] 2100]

/-- Whether the first control port with the given name has start set (false
when no port with that name exists). -/
def started_in (l : List ControlPort) (p : String) : Bool :=
  match find_control_port_by_name l p with
  | some c => c.start
  | none => false

/-- Whether the control port named p of the state has start set. -/
def port_started (st : MTPState) (p : String) : Bool :=
  started_in st.cps p

/-- Whether an accepted-table entry for port p exists. -/
def has_accepted_entry (st : MTPState) (p : String) : Bool :=
  (find_accepted_port_by_name st.vaps p).isSome

/-- Whether an offered-table entry for port p exists. -/
def has_offered_entry (st : MTPState) (p : String) : Bool :=
  (find_offered_port_by_name st.vops p).isSome

theorem started_in_modify (l : List ControlPort) (q p : String) (f : ControlPort → ControlPort)
    (hfn : ∀ c, (f c).port_name = c.port_name) (hfs : ∀ c, (f c).start = c.start) :
    started_in (modify_control_port l q f) p = started_in l p := by
  by_cases hpq : p = q
  · subst hpq
    rw [started_in, started_in, find_cp_modify_self hfn]
    cases find_control_port_by_name l p with
    | none => rfl
    | some c => exact hfs c
  · rw [started_in, started_in, find_cp_modify_ne hpq hfn]

theorem started_in_modify_ne (l : List ControlPort) (q p : String) (f : ControlPort → ControlPort)
    (hpq : p ≠ q) (hfn : ∀ c, (f c).port_name = c.port_name) :
    started_in (modify_control_port l q f) p = started_in l p := by
  rw [started_in, started_in, find_cp_modify_ne hpq hfn]

theorem started_in_map (l : List ControlPort) (p : String) (f : ControlPort → ControlPort)
    (hfn : ∀ c, (f c).port_name = c.port_name) (hfs : ∀ c, (f c).start = c.start) :
    started_in (l.map f) p = started_in l p := by
  rw [started_in, started_in, find_cp_map hfn]
  cases find_control_port_by_name l p with
  | none => rfl
  | some c => exact hfs c

theorem loop_port_check_port_name (alive : List String) (now : Int) (c : ControlPort) :
    (loop_port_check alive now c).port_name = c.port_name := by
  rw [loop_port_check]
  split
  · rfl
  · dsimp only
    repeat' split
    all_goals rfl

theorem loop_port_check_start (alive : List String) (now : Int) (c : ControlPort) :
    (loop_port_check alive now c).start = c.start := by
  rw [loop_port_check]
  split
  · rfl
  · dsimp only
    repeat' split
    all_goals rfl

theorem find_offered_add_mono {l : List VID_offered_port} {q v p : String}
    (h : (find_offered_port_by_name l p).isSome = true) :
    (find_offered_port_by_name (add_to_offered_table l q v) p).isSome = true := by
  induction l with
  | nil => simp [find_offered_port_by_name] at h
  | cons w rest ih =>
    rw [add_to_offered_table]
    by_cases hq : w.port_name = q
    · rw [if_pos hq]
      by_cases hp : w.port_name = p
      · simp [find_offered_port_by_name, hp]
      · simp only [find_offered_port_by_name, hp, if_false, if_neg hp]
        rw [find_offered_port_by_name, if_neg hp] at h
        exact h
    · rw [if_neg hq]
      by_cases hp : w.port_name = p
      · simp [find_offered_port_by_name, hp]
      · simp only [find_offered_port_by_name, if_neg hp]
        apply ih
        rw [find_offered_port_by_name, if_neg hp] at h
        exact h

theorem find_offered_foldl_add_mono {vids : List String} {l : List VID_offered_port} {q p : String}
    (h : (find_offered_port_by_name l p).isSome = true) :
    (find_offered_port_by_name (vids.foldl (fun acc v => add_to_offered_table acc q v) l) p).isSome = true := by
  induction vids generalizing l with
  | nil => exact h
  | cons v rest ih =>
    rw [List.foldl_cons]
    exact ih (find_offered_add_mono h)

theorem has_offered_step (st : MTPState) (e : Event) (p : String)
    (h : has_offered_entry st p = true) : has_offered_entry (step st e) p = true := by
  cases e with
  | helloNR _ _ _ => exact h
  | joinReq _ _ => exact h
  | joinRes _ _ => exact h
  | joinAck q vids =>
    show has_offered_entry (handle_receive_join_ack st q vids) p = true
    have hmono : (find_offered_port_by_name
        (vids.foldl (fun l v => add_to_offered_table l q v) st.vops) p).isSome = true :=
      find_offered_foldl_add_mono h
    rw [handle_receive_join_ack]
    dsimp only
    split
    · split
      · exact hmono
      · show (find_offered_port_by_name (modify_offered
          (vids.foldl (fun l v => add_to_offered_table l q v) st.vops) q
          (fun w => { w with cpSet := true })) p).isSome = true
        rw [find_offered_modify_isSome (fun w => { w with cpSet := true }) (fun w => rfl)]
        exact hmono
    · exact hmono
  | startHello _ => exact h
  | dataMsg _ _ => exact h
  | keepAlive q now =>
    show has_offered_entry (handle_receive_keep_alive st q now) p = true
    rw [handle_receive_keep_alive]
    split
    · exact h
    · exact h
  | failureUpdate q opt vids =>
    show has_offered_entry (handle_receive_failure_update st q opt vids).1 p = true
    rw [failure_update_fst]
    split
    · exact h
    · split
      · split
        · show (find_offered_port_by_name (modify_offered st.vops q
            (fun w => { w with rt := [], ut := add_VIDs vids w.ut })) p).isSome = true
          rw [find_offered_modify_isSome (fun w => { w with rt := [], ut := add_VIDs vids w.ut }) (fun w => rfl)]
          exact h
        · show (find_offered_port_by_name (modify_offered st.vops q
            (fun w => { w with rt := add_VIDs vids [] })) p).isSome = true
          rw [find_offered_modify_isSome (fun w => { w with rt := add_VIDs vids [] }) (fun w => rfl)]
          exact h
      · exact h
  | recoverUpdate q opt vids =>
    show has_offered_entry (handle_receive_recover_update st q opt vids).1 p = true
    rw [recover_update_fst]
    split
    · exact h
    · split
      · split
        · show (find_offered_port_by_name (modify_offered st.vops q
            (fun w => { w with ut := vids.foldl remove_unreachable_VID_by_name w.ut })) p).isSome = true
          rw [find_offered_modify_isSome (fun w => { w with ut := vids.foldl remove_unreachable_VID_by_name w.ut }) (fun w => rfl)]
          exact h
        · show (find_offered_port_by_name (modify_offered st.vops q
            (fun w => { w with rt := [] })) p).isSome = true
          rw [find_offered_modify_isSome (fun (w : VID_offered_port) => { w with rt := [] }) (fun w => rfl)]
          exact h
      · exact h
  | loopCheck _ _ => exact h

theorem has_offered_foldl (evs : List Event) (st : MTPState) (p : String)
    (h : has_offered_entry st p = true) : has_offered_entry (evs.foldl step st) p = true := by
  induction evs generalizing st with
  | nil => exact h
  | cons e rest ih =>
    rw [List.foldl_cons]
    exact ih (step st e) (has_offered_step st e p h)

theorem started_step (st : MTPState) (e : Event) (p : String)
    (h : port_started (step st e) p = true) :
    port_started st p = true ∨ has_offered_entry (step st e) p = true ∨ e = Event.startHello p := by
  cases e with
  | helloNR _ _ _ => exact Or.inl h
  | joinReq _ _ => exact Or.inl h
  | joinRes _ _ => exact Or.inl h
  | joinAck q vids =>
    by_cases hpq : p = q
    · subst hpq
      revert h
      show port_started (handle_receive_join_ack st p vids) p = true → _
      rw [handle_receive_join_ack]
      dsimp only
      split
      · rename_i v hv
        split
        · intro h2
          exact Or.inl h2
        · rename_i hcps
          intro _
          refine Or.inr (Or.inl ?_)
          show has_offered_entry (handle_receive_join_ack st p vids) p = true
          rw [handle_receive_join_ack]
          dsimp only
          simp only [hv]
          rw [if_neg hcps]
          show (find_offered_port_by_name (modify_offered
            (vids.foldl (fun l v => add_to_offered_table l p v) st.vops) p
            (fun w => { w with cpSet := true })) p).isSome = true
          rw [find_offered_modify_isSome (fun w => { w with cpSet := true }) (fun w => rfl), hv]
          rfl
      · intro h2
        exact Or.inl h2
    · left
      revert h
      show port_started (handle_receive_join_ack st q vids) p = true → port_started st p = true
      rw [handle_receive_join_ack]
      dsimp only
      split
      · split
        · exact fun h2 => h2
        · intro h2
          have e := started_in_modify_ne st.cps q p
            (fun c => { c with isUP := true, start := true }) hpq (fun c => rfl)
          show started_in st.cps p = true
          rw [← e]
          exact h2
      · exact fun h2 => h2
  | startHello q =>
    by_cases hpq : p = q
    · subst hpq
      exact Or.inr (Or.inr rfl)
    · left
      have e := started_in_modify_ne st.cps q p
        (fun c => { c with isUP := true, start := true }) hpq (fun c => rfl)
      show started_in st.cps p = true
      rw [← e]
      exact h
  | dataMsg q now =>
    left
    have e := started_in_modify st.cps q p
      (fun c => { c with last_received_time := now }) (fun c => rfl) (fun c => rfl)
    show started_in st.cps p = true
    rw [← e]
    exact h
  | keepAlive q now =>
    left
    revert h
    show port_started (handle_receive_keep_alive st q now) p = true → port_started st p = true
    rw [handle_receive_keep_alive]
    split
    · intro h2
      have e := started_in_modify st.cps q p (keep_alive_port now)
        (keep_alive_port_port_name now) (keep_alive_port_start now)
      show started_in st.cps p = true
      rw [← e]
      exact h2
    · exact fun h2 => h2
  | failureUpdate q opt vids =>
    left
    have e := failure_update_fst_cps st q opt vids
    show started_in st.cps p = true
    rw [← e]
    exact h
  | recoverUpdate q opt vids =>
    left
    have e := recover_update_fst_cps st q opt vids
    show started_in st.cps p = true
    rw [← e]
    exact h
  | loopCheck alive now =>
    left
    have e := started_in_map st.cps p (loop_port_check alive now)
      (loop_port_check_port_name alive now) (loop_port_check_start alive now)
    show started_in st.cps p = true
    rw [← e]
    exact h

theorem port_started_init (cfg : Config) (names : List String) (p : String) :
    port_started (initState cfg names) p = false := by
  show started_in (names.map initControlPort) p = false
  induction names with
  | nil => rfl
  | cons n rest ih =>
    by_cases hp : n = p
    · simp [started_in, find_control_port_by_name, initControlPort, hp]
    · rw [List.map_cons, started_in, find_control_port_by_name]
      rw [if_neg ?_]
      · exact ih
      · show ¬ (initControlPort n).port_name = p
        simp [initControlPort, hp]

/-- C8 counterexample: a bare START_HELLO received on port p sets start with
neither an accepted- nor an offered-table entry existing for p, refuting the
claimed exclusive-entry property of started ports. -/
theorem started_port_claim_false :
    port_started (run spineCfg ["p"] [Event.startHello "p"]) "p" = true
    ∧ has_accepted_entry (run spineCfg ["p"] [Event.startHello "p"]) "p" = false
    ∧ has_offered_entry (run spineCfg ["p"] [Event.startHello "p"]) "p" = false := by
  refine ⟨by decide, by decide, by decide⟩

/-- C8 (amended): in every state reachable from startup by a sequence of
received MTP messages, a port with start == true either has an offered-table
entry (the JOIN_ACK that set start created one) or received a START_HELLO,
which turns the port on without creating any table entry; the
accepted-or-offered alternative is not exclusive and an accepted entry need
not exist. -/
theorem started_port_amended (cfg : Config) (names : List String) (events : List Event) (p : String)
    (h : port_started (run cfg names events) p = true) :
    has_offered_entry (run cfg names events) p = true ∨ Event.startHello p ∈ events := by
  have main : ∀ (evs : List Event) (st : MTPState),
      port_started (evs.foldl step st) p = true →
      port_started st p = true ∨ has_offered_entry (evs.foldl step st) p = true ∨
        Event.startHello p ∈ evs := by
    intro evs
    induction evs with
    | nil =>
      intro st hst
      exact Or.inl hst
    | cons e rest ih =>
      intro st hst
      rw [List.foldl_cons] at hst
      rcases ih (step st e) hst with h1 | h2 | h3
      · rcases started_step st e p h1 with g1 | g2 | g3
        · exact Or.inl g1
        · refine Or.inr (Or.inl ?_)
          rw [List.foldl_cons]
          exact has_offered_foldl rest (step st e) p g2
        · subst g3
          exact Or.inr (Or.inr (List.mem_cons_self _ _))
      · refine Or.inr (Or.inl ?_)
        rw [List.foldl_cons]
        exact h2
      · exact Or.inr (Or.inr (List.mem_cons_of_mem e h3))
  rcases main events (initState cfg names) h with h1 | h2 | h3
  · rw [port_started_init cfg names p] at h1
    exact Bool.noConfusion h1
  · exact Or.inl h2
  · exact Or.inr h3

theorem started_port_witness :
    has_offered_entry (run spineCfg ["p"] [Event.joinAck "p" ["1"]]) "p" = true
    ∨ Event.startHello "p" ∈ [Event.joinAck "p" ["1"]] :=
  started_port_amended spineCfg ["p"] [Event.joinAck "p" ["1"]] "p" (by decide)

end MTP
